import Mathlib

/-!
Verification development for the Contract Intelligence text-analysis core
(`src/utils.py`): the chunker (`PDFProcessor.chunk_text`), the field
extractor (`ContractExtractor`), the lexical retriever
(`RAGEngine.semantic_search`) and the risk auditor (`RiskAuditEngine`).

Python strings are modelled as `List Char`; Python `dict`s used as loose
records are modelled as ordered association lists `List (String × PyVal)`.
Regular expressions are modelled by a small prioritized backtracking
engine (`RE` / `runs`) whose backtracking order mirrors the CPython `re`
module (leftmost match; alternatives tried left to right; greedy
quantifiers prefer longer, lazy quantifiers prefer shorter).  All texts
appearing in the claims are ASCII, for which `lowerChar` agrees with
Python `str.lower` and the ASCII character classes below agree with
`\s`, `\d`, `[A-Z]` (under `re.IGNORECASE`) etc.
-/

/-- ASCII lower-casing, as Python `str.lower` acts on ASCII text. -/
def lowerChar (c : Char) : Char :=
  if 'A' ≤ c ∧ c ≤ 'Z' then Char.ofNat (c.toNat + 32) else c

/-- Lower-case a whole string (`text.lower()` / the effect of `re.IGNORECASE`). -/
def lowerL (l : List Char) : List Char := l.map lowerChar

/-- Python whitespace (`str.split`, `str.strip`, regex `\s`): space, TAB, LF, VT, FF, CR. -/
def pyIsSpace (c : Char) : Bool :=
  c == ' ' || (9 ≤ c.toNat && c.toNat ≤ 13)

/-- Regex `\d` on ASCII text. -/
def pyIsDigit (c : Char) : Bool := c.isDigit

/-- Python slice `l[a:b]` restricted to non-negative bounds (`a`, `b` clamped to the length). -/
def sliceN (l : List Char) (a b : Nat) : List Char := (l.take b).drop a

/-- Full Python slice `l[a:b]` with step 1, including negative-index wrap-around:
a negative bound `i` denotes `max (len l + i) 0`. -/
def pySlice (l : List Char) (a b : Int) : List Char :=
  let n : Int := l.length
  let a' : Int := if a < 0 then max (n + a) 0 else a
  let b' : Int := if b < 0 then max (n + b) 0 else b
  (l.take b'.toNat).drop a'.toNat

/-- Python `str.strip()`: drop leading and trailing whitespace. -/
def pyStrip (l : List Char) : List Char :=
  ((l.dropWhile pyIsSpace).reverse.dropWhile pyIsSpace).reverse

/-- Python `str.strip(chars)` for a one-character-class strip (used for `,` and `.`). -/
def pyStripChar (p : Char → Bool) (l : List Char) : List Char :=
  ((l.dropWhile p).reverse.dropWhile p).reverse

/-- Python `str.split()` with no argument: split on whitespace runs, no empty pieces. -/
def pySplitAux : List Char → List Char → List (List Char)
  | [], acc => if acc.isEmpty then [] else [acc.reverse]
  | c :: cs, acc =>
    if pyIsSpace c then
      if acc.isEmpty then pySplitAux cs [] else acc.reverse :: pySplitAux cs []
    else
      pySplitAux cs (c :: acc)

def pySplit (l : List Char) : List (List Char) := pySplitAux l []

/-- Python substring test `pat in text`. -/
def containsSub (pat l : List Char) : Bool :=
  l.tails.any (fun t => pat.isPrefixOf t)

/-- Python `int(..)` on a string of decimal digits. -/
def natOfDigits (l : List Char) : Nat :=
  l.foldl (fun n c => n * 10 + (c.toNat - 48)) 0

/-! ## The regex engine

`RE` covers exactly the constructs used by `src/utils.py`: literals,
character classes, concatenation, alternation, greedy `?`, greedy/lazy
`*` (with `+` as `r r*`), one capture group per pattern, and the
MULTILINE `$` anchor.  `runs re cs pos` returns the list of possible
match continuations `(rest, endPos, groupSpan)` in exactly the order the
CPython backtracking engine would explore them, so its head is the match
the `re` module reports. -/

inductive RE where
  | lit  (s : List Char)
  | cls  (p : Char → Bool)
  | seq  (a b : RE)
  | alt  (a b : RE)
  | opt  (r : RE)
  | star (lazy : Bool) (r : RE)
  | grp  (r : RE)
  | eol

/-- A match continuation: remaining input, absolute end position, capture span. -/
abbrev MRes := List Char × Nat × Option (Nat × Nat)

/-- Keep the first capture recorded (the patterns below have at most one group). -/
def gcomb : Option (Nat × Nat) → Option (Nat × Nat) → Option (Nat × Nat)
  | some g, _ => some g
  | none, g => g

/-- Kleene-star continuations: `step` matches one occurrence of the body; an
iteration must consume at least one character (all star/plus bodies in the
source patterns are non-nullable, matching CPython behaviour on them).
Greedy stars put longer expansions first, lazy stars put the empty expansion first. -/
def starRuns (lz : Bool) (step : List Char → Nat → List MRes) :
    Nat → List Char → Nat → List MRes
  | 0, cs, pos => [(cs, pos, none)]
  | fuel + 1, cs, pos =>
    let one := (step cs pos).flatMap (fun m =>
      if m.1.length < cs.length then
        (starRuns lz step fuel m.1 m.2.1).map (fun m2 => (m2.1, m2.2.1, gcomb m.2.2 m2.2.2))
      else [])
    if lz then (cs, pos, none) :: one else one ++ [(cs, pos, none)]

/-- All match continuations of `re` against `cs` (the suffix starting at
absolute position `pos`), in CPython backtracking order. -/
def runs : RE → List Char → Nat → List MRes
  | .lit s, cs, pos =>
    if s.isPrefixOf cs then [(cs.drop s.length, pos + s.length, none)] else []
  | .cls p, cs, pos =>
    match cs with
    | [] => []
    | c :: rest => if p c then [(rest, pos + 1, none)] else []
  | .seq a b, cs, pos =>
    (runs a cs pos).flatMap (fun m =>
      (runs b m.1 m.2.1).map (fun m2 => (m2.1, m2.2.1, gcomb m.2.2 m2.2.2)))
  | .alt a b, cs, pos => runs a cs pos ++ runs b cs pos
  | .opt r, cs, pos => runs r cs pos ++ [(cs, pos, none)]
  | .star lz r, cs, pos => starRuns lz (runs r) (cs.length + 1) cs pos
  | .grp r, cs, pos =>
    (runs r cs pos).map (fun m => (m.1, m.2.1, some (pos, m.2.1)))
  | .eol, cs, pos =>
    match cs with
    | [] => [(cs, pos, none)]
    | c :: _ => if c == '\n' then [(cs, pos, none)] else []

/-- The match of `re` anchored at position `i` of `text`, if any:
`(endPos, groupSpan)` of the first continuation in backtracking order. -/
def matchHere (re : RE) (text : List Char) (i : Nat) : Option (Nat × Option (Nat × Nat)) :=
  match runs re (text.drop i) i with
  | [] => none
  | m :: _ => some (m.2.1, m.2.2)

/-- `re.search`: the leftmost match, as `(start, end, groupSpan)`. -/
def pySearch (re : RE) (text : List Char) : Option (Nat × Nat × Option (Nat × Nat)) :=
  (List.range (text.length + 1)).findSome? (fun i =>
    (matchHere re text i).map (fun m => (i, m.1, m.2)))

/-- `re.finditer`: all non-overlapping matches, scanning left to right. -/
def pyFinditerAux (re : RE) (text : List Char) : Nat → Nat → List (Nat × Nat × Option (Nat × Nat))
  | 0, _ => []
  | fuel + 1, i =>
    if i > text.length then []
    else
      match matchHere re text i with
      | some (e, g) => (i, e, g) :: pyFinditerAux re text fuel (max (i + 1) e)
      | none => pyFinditerAux re text fuel (i + 1)

def pyFinditer (re : RE) (text : List Char) : List (Nat × Nat × Option (Nat × Nat)) :=
  pyFinditerAux re text (text.length + 2) 0

/-- `re.search(p, text, re.IGNORECASE)`: match against the lowered text.
Positions remain valid in the original text since lowering preserves length. -/
def pySearchI (re : RE) (text : List Char) : Option (Nat × Nat × Option (Nat × Nat)) :=
  pySearch re (lowerL text)

/-- `re.finditer(p, text, re.IGNORECASE)`. -/
def pyFinditerI (re : RE) (text : List Char) : List (Nat × Nat × Option (Nat × Nat)) :=
  pyFinditer re (lowerL text)

/-! Pattern-building shorthands. -/

def reLit (s : String) : RE := .lit s.data
def reSeqs (l : List RE) : RE := l.foldr .seq (.lit [])
def reFail : RE := .cls (fun _ => false)
def reAlts (l : List RE) : RE := l.foldr .alt reFail
def reSpace : RE := .cls pyIsSpace
def reDigit : RE := .cls pyIsDigit
/-- `.` (any character but a newline; DOTALL is never passed in the source). -/
def reDot : RE := .cls (fun c => c != '\n')
def rePlus (r : RE) : RE := .seq r (.star false r)
/-- `.*?` -/
def reLazyDotStar : RE := .star true reDot
/-- A letter class: `[A-Z]` or `[a-z]` under `re.IGNORECASE`, applied to lowered text. -/
def reLetter : RE := .cls (fun c => 'a' ≤ c && c ≤ 'z')

/-! ## Chunker: `PDFProcessor.chunk_text`

The source loop (`utils.py` lines 95-119) is

    while start < text_length:
        end = start + chunk_size
        if end < text_length:
            search_start = max(start, end - 100)
            search_text = text[search_start:end + 100]
            match = None
            for pattern in [r'\.\s', r'\!\s', r'\?\s', r'\n\n']:
                matches = list(re.finditer(pattern, search_text))
                if matches:
                    match = matches[-1]
                    break
            if match:
                end = search_start + match.end()
        chunk = text[start:end].strip()
        if chunk:
            chunks.append(chunk)
        start = end - chunk_overlap

`start`, `end`, `chunk_size`, `chunk_overlap` are Python ints (they can go
negative), so they are modelled as `Int` and slicing uses `pySlice`.  The
loop itself need not terminate, so it is modelled with explicit fuel:
`none` means the loop has not returned within `fuel` iterations; a result
of `none` for every fuel is non-termination. -/

/-- The four sentence-boundary patterns tried in order by `chunk_text`. -/
def boundaryPatterns : List RE :=
  [ .seq (reLit ".") reSpace,   -- r'\.\s'
    .seq (reLit "!") reSpace,   -- r'\!\s'
    .seq (reLit "?") reSpace,   -- r'\?\s'
    reLit "\n\n" ]              -- r'\n\n'

/-- The boundary-search adjustment of the candidate end (only reached when
`end < len(text)`): the first pattern with a non-empty match list wins and
the last of its matches is used. -/
def chunkAdjustEnd (text : List Char) (start endC : Int) : Int :=
  let searchStart : Int := max start (endC - 100)
  let searchText := pySlice text searchStart (endC + 100)
  match boundaryPatterns.findSome? (fun p => (pyFinditer p searchText).getLast?) with
  | some m => searchStart + (m.2.1 : Int)
  | none => endC

/-- The `while` loop of `chunk_text`, with fuel. -/
def chunkLoop (text : List Char) (size overlap : Int) :
    Nat → Int → List (List Char) → Option (List (List Char))
  | 0, _, _ => none
  | fuel + 1, start, chunks =>
    if start < (text.length : Int) then
      let end0 : Int := start + size
      let endC : Int :=
        if end0 < (text.length : Int) then chunkAdjustEnd text start end0 else end0
      let chunk := pyStrip (pySlice text start endC)
      let chunks' := if chunk.isEmpty then chunks else chunks ++ [chunk]
      chunkLoop text size overlap fuel (endC - overlap) chunks'
    else some chunks

/-- `PDFProcessor.chunk_text(text, chunk_size, chunk_overlap)` with fuel. -/
def chunk_text (text : List Char) (size overlap : Int) (fuel : Nat) :
    Option (List (List Char)) :=
  if text.isEmpty then some [] else chunkLoop text size overlap fuel 0 []

/-! ## Field extractor: `ContractExtractor`

Every pattern below is transliterated from the regex constant in
`utils.py`; since these searches all pass `re.IGNORECASE`, the literal
fragments are written lower-case and matching happens against the lowered
text (`pySearchI` / `pyFinditerI`), while captured substrings are sliced
out of the original text to preserve its case, as Python does. -/

/-- The capture slice of a match triple, from text `t` (group 1 where present,
whole match otherwise, which is `re.findall` behaviour for 0/1 groups). -/
def groupSlice (t : List Char) (m : Nat × Nat × Option (Nat × Nat)) : List Char :=
  match m.2.2 with
  | some (a, b) => sliceN t a b
  | none => sliceN t m.1 m.2.1

/-- `r'between\s+([A-Z][A-Za-z\s&,\.]+?)\s+(?:and|&)'` etc.: the body class
`[A-Za-z\s&,\.]` under IGNORECASE, applied to lowered text. -/
def rePartyChar : RE :=
  .cls (fun c => ('a' ≤ c && c ≤ 'z') || pyIsSpace c || c == '&' || c == ',' || c == '.')

/-- `([A-Z][A-Za-z\s&,\.]+?)` -/
def rePartyName : RE := .grp (.seq reLetter (.seq rePartyChar (.star true rePartyChar)))

/-- The four party patterns of `extract_parties`, in source order. -/
def partyPatterns : List RE :=
  [ -- r'between\s+([A-Z][A-Za-z\s&,\.]+?)\s+(?:and|&)'
    reSeqs [reLit "between", rePlus reSpace, rePartyName, rePlus reSpace,
            .alt (reLit "and") (reLit "&")],
    -- r'entered into by\s+([A-Z][A-Za-z\s&,\.]+?)\s+(?:and|&)'
    reSeqs [reLit "entered into by", rePlus reSpace, rePartyName, rePlus reSpace,
            .alt (reLit "and") (reLit "&")],
    -- r'PARTY\s+(?:A|1):\s*([A-Z][A-Za-z\s&,\.]+?)(?:\n|$)'
    reSeqs [reLit "party", rePlus reSpace, .alt (reLit "a") (reLit "1"), reLit ":",
            .star false reSpace, rePartyName, .alt (reLit "\n") .eol],
    -- r'(?:Client|Vendor|Contractor):\s*([A-Z][A-Za-z\s&,\.]+?)(?:\n|$)'
    reSeqs [reAlts [reLit "client", reLit "vendor", reLit "contractor"], reLit ":",
            .star false reSpace, rePartyName, .alt (reLit "\n") .eol] ]

/-- `ContractExtractor.extract_parties`.  Python collects the group-1 captures
of `re.findall` over `text[:2000]`, strips whitespace then commas then dots,
keeps entries longer than 3 characters, and returns `list(set(parties))[:5]`.
`set` iteration order is unspecified in Python; the embedding fixes
first-occurrence order (`dedup`), which agrees on the empty and singleton
cases the claims use. -/
def extract_parties (text : List Char) : List (List Char) :=
  let head := text.take 2000
  let parties := partyPatterns.flatMap (fun p =>
    (pyFinditerI p head).flatMap (fun m =>
      let party := pyStripChar (fun c => c == '.')
        (pyStripChar (fun c => c == ',') (pyStrip (groupSlice head m)))
      if !party.isEmpty && party.length > 3 then [party] else []))
  parties.dedup.take 5

/-- `(\d{1,2}[\/\-]\d{1,2}[\/\-]\d{2,4})` -/
def reNumericDate : RE :=
  .grp (reSeqs [reDigit, .opt reDigit, .cls (fun c => c == '/' || c == '-'),
                reDigit, .opt reDigit, .cls (fun c => c == '/' || c == '-'),
                reDigit, reDigit, .opt reDigit, .opt reDigit])

/-- `([A-Z][a-z]+\s+\d{1,2},?\s+\d{4})` -/
def reTextualDate : RE :=
  .grp (reSeqs [reLetter, rePlus reLetter, rePlus reSpace, reDigit, .opt reDigit,
                .opt (reLit ","), rePlus reSpace, reDigit, reDigit, reDigit, reDigit])

/-- The three date patterns of `extract_dates`, in source order. -/
def datePatterns : List RE :=
  [ -- r'(?:effective|dated?|entered into).*?(\d{1,2}[\/\-]\d{1,2}[\/\-]\d{2,4})'
    reSeqs [reAlts [reLit "effective", .seq (reLit "date") (.opt (reLit "d")),
                    reLit "entered into"],
            reLazyDotStar, reNumericDate],
    -- r'(?:effective|dated?|entered into).*?([A-Z][a-z]+\s+\d{1,2},?\s+\d{4})'
    reSeqs [reAlts [reLit "effective", .seq (reLit "date") (.opt (reLit "d")),
                    reLit "entered into"],
            reLazyDotStar, reTextualDate],
    -- r'Effective Date:\s*([A-Z][a-z]+\s+\d{1,2},?\s+\d{4})'
    reSeqs [reLit "effective date:", .star false reSpace, reTextualDate] ]

/-- `ContractExtractor.extract_dates`: first pattern whose `re.search` over
`text[:2000]` matches wins; its group 1 is returned. -/
def extract_dates (text : List Char) : Option (List Char) :=
  let head := text.take 2000
  datePatterns.findSome? (fun p =>
    (pySearchI p head).map (fun m => groupSlice head m))

/-- `(\d+\s+(?:year|month|day)s?)` -/
def reTermDuration : RE :=
  .grp (reSeqs [rePlus reDigit, rePlus reSpace,
                reAlts [reLit "year", reLit "month", reLit "day"], .opt (reLit "s")])

/-- The three term patterns of `extract_term`, in source order. -/
def termPatterns : List RE :=
  [ -- r'(?:term|duration).*?(\d+\s+(?:year|month|day)s?)'
    reSeqs [.alt (reLit "term") (reLit "duration"), reLazyDotStar, reTermDuration],
    -- r'for a period of\s+(\d+\s+(?:year|month|day)s?)'
    reSeqs [reLit "for a period of", rePlus reSpace, reTermDuration],
    -- r'Term:\s*([^\n]+)'
    reSeqs [reLit "term:", .star false reSpace, .grp (rePlus (.cls (fun c => c != '\n')))] ]

/-- `ContractExtractor.extract_term`: searches `text[:3000]`; the winning
group 1 is stripped. -/
def extract_term (text : List Char) : Option (List Char) :=
  let head := text.take 3000
  termPatterns.findSome? (fun p =>
    (pySearchI p head).map (fun m => pyStrip (groupSlice head m)))

/-- `([A-Z][a-z]+(?:\s+[A-Z][a-z]+)*)` -/
def rePlaceName : RE :=
  .grp (reSeqs [reLetter, rePlus reLetter,
                .star false (reSeqs [rePlus reSpace, reLetter, rePlus reLetter])])

/-- The three governing-law patterns of `extract_governing_law`, in source order. -/
def lawPatterns : List RE :=
  [ -- r'governed by.*?laws of\s+([A-Z][a-z]+(?:\s+[A-Z][a-z]+)*)'
    reSeqs [reLit "governed by", reLazyDotStar, reLit "laws of", rePlus reSpace, rePlaceName],
    -- r'governing law.*?([A-Z][a-z]+(?:\s+[A-Z][a-z]+)*)\s+law'
    reSeqs [reLit "governing law", reLazyDotStar, rePlaceName, rePlus reSpace, reLit "law"],
    -- r'Governing Law:\s*([^\n]+)'
    reSeqs [reLit "governing law:", .star false reSpace,
            .grp (rePlus (.cls (fun c => c != '\n')))] ]

/-- `ContractExtractor.extract_governing_law`: searches the full text; the
winning group 1 is stripped. -/
def extract_governing_law (text : List Char) : Option (List Char) :=
  lawPatterns.findSome? (fun p =>
    (pySearchI p text).map (fun m => pyStrip (groupSlice text m)))

/-- `(?:USD|EUR|\$|€|£)` on lowered text. -/
def reCurrencyMark : RE := reAlts [reLit "usd", reLit "eur", reLit "$", reLit "€", reLit "£"]

/-- `(\d+(?:,\d{3})*(?:\.\d{2})?)` -/
def reAmount : RE :=
  .grp (reSeqs [rePlus reDigit,
                .star false (reSeqs [reLit ",", reDigit, reDigit, reDigit]),
                .opt (reSeqs [reLit ".", reDigit, reDigit])])

/-- The two liability patterns of `extract_liability_cap`, in source order. -/
def liabilityPatterns : List RE :=
  [ -- r'liability.*?(?:limited|capped|exceed).*?(?:USD|EUR|\$|€|£)\s*(\d+(?:,\d{3})*(?:\.\d{2})?)'
    reSeqs [reLit "liability", reLazyDotStar,
            reAlts [reLit "limited", reLit "capped", reLit "exceed"],
            reLazyDotStar, reCurrencyMark, .star false reSpace, reAmount],
    -- r'(?:USD|EUR|\$|€|£)\s*(\d+(?:,\d{3})*(?:\.\d{2})?).*?liability'
    reSeqs [reCurrencyMark, .star false reSpace, reAmount, reLazyDotStar, reLit "liability"] ]

/-- `float(amount_str)` on the comma-stripped capture of `reAmount`: digits
with an optional two-digit decimal part.  Values of this shape are decimal
numbers that Python parses exactly; they are modelled in `ℚ`.  Any other
shape is a parse failure (`ValueError`), yielding `none`. -/
def parseAmount (l : List Char) : Option ℚ :=
  let ds := l.takeWhile pyIsDigit
  let rest := l.drop ds.length
  if ds.isEmpty then none
  else
    match rest with
    | [] => some (natOfDigits ds : ℚ)
    | c :: d1 :: d2 :: [] =>
      if c == '.' && pyIsDigit d1 && pyIsDigit d2 then
        some ((natOfDigits ds : ℚ) + (natOfDigits [d1, d2] : ℚ) / 100)
      else none
    | _ => none

/-- The result record of `extract_liability_cap` (the Python dict
`{"amount": float, "currency": str}`; the empty dict is `none`). -/
structure LiabilityCap where
  amount : ℚ
  currency : String
deriving DecidableEq

/-- `re.search(r'(USD|EUR|GBP|\$|€|£)', group0)` — no IGNORECASE here — then
the normalization `€`/`EUR` → EUR, `£`/`GBP` → GBP, else USD. -/
def currencyOf (group0 : List Char) : String :=
  match pySearch (reAlts [reLit "USD", reLit "EUR", reLit "GBP",
                          reLit "$", reLit "€", reLit "£"]) group0 with
  | some m =>
    let curr := sliceN group0 m.1 m.2.1
    if curr = "€".data ∨ curr = "EUR".data then "EUR"
    else if curr = "£".data ∨ curr = "GBP".data then "GBP"
    else "USD"
  | none => "USD"

/-- The pattern cascade of `extract_liability_cap`: a pattern that does not
match, or whose captured amount fails to parse (`except ValueError: pass`),
is discarded and the next pattern is tried. -/
def liabilityGo (text : List Char) : List RE → Option LiabilityCap
  | [] => none
  | p :: ps =>
    match pySearchI p text with
    | none => liabilityGo text ps
    | some m =>
      match parseAmount ((groupSlice text m).filter (fun c => c != ',')) with
      | none => liabilityGo text ps
      | some amount => some ⟨amount, currencyOf (sliceN text m.1 m.2.1)⟩

/-- `ContractExtractor.extract_liability_cap`. -/
def extract_liability_cap (text : List Char) : Option LiabilityCap :=
  liabilityGo text liabilityPatterns

/-- `r'auto(?:matic)?(?:ally)?\s+renew'` -/
def autoRenewRE : RE :=
  reSeqs [reLit "auto", .opt (reLit "matic"), .opt (reLit "ally"), rePlus reSpace,
          reLit "renew"]

/-- `r'(\d+)\s+day[s]?\s+(?:notice|prior)'` (also the auditor's notice pattern). -/
def noticeRE : RE :=
  reSeqs [.grp (rePlus reDigit), rePlus reSpace, reLit "day", .opt (reLit "s"),
          rePlus reSpace, .alt (reLit "notice") (reLit "prior")]

/-- `ContractExtractor.extract_auto_renewal`: the notice capture is spliced
textually into the answer (`f"Yes, {group1} days notice required"`). -/
def extract_auto_renewal (text : List Char) : List Char :=
  if (pySearchI autoRenewRE text).isSome then
    match pySearchI noticeRE text with
    | some m => "Yes, ".data ++ groupSlice text m ++ " days notice required".data
    | none => "Yes".data
  else
    "No".data

/-! ## Lexical retriever: `RAGEngine.semantic_search`

Chunk records are loose Python dicts; they are modelled as ordered
association lists over a small value type.  `{**chunk, 'relevance_score':
score}` keeps every pair of `chunk` in order, overwriting the value in
place if the key is already present and appending the pair otherwise —
exactly Python dict-merge semantics (`dictSet`). -/

inductive PyVal where
  | vStr (s : List Char)
  | vNat (n : Nat)
deriving DecidableEq

/-- A Python dict used as a record: an ordered association list. -/
abbrev PyDict := List (String × PyVal)

/-- `{**d, k: v}`: overwrite in place if present, else append. -/
def dictSet (d : PyDict) (k : String) (v : PyVal) : PyDict :=
  match d with
  | [] => [(k, v)]
  | (k', v') :: rest => if k' == k then (k, v) :: rest else (k', v') :: dictSet rest k v

/-- `chunk.get('text_content', '')`.  A non-string value under the key would
make Python's subsequent `.lower()` raise; the embedding totalizes that
case to the empty string (no claim exercises it). -/
def textContent (c : PyDict) : List Char :=
  match c.lookup "text_content" with
  | some (.vStr s) => s
  | _ => []

/-- The keyword-overlap score: the number of distinct lower-cased
whitespace-separated query tokens that occur (as substrings) in the
lower-cased chunk text.  This is `sum(1 for word in set(query.lower().split())
if word in text)`, which is order-independent over the set. -/
def chunkScore (query : List Char) (c : PyDict) : Nat :=
  ((pySplit (lowerL query)).dedup).countP (fun w => containsSub w (lowerL (textContent c)))

/-- `{**chunk, 'relevance_score': score}`. -/
def withScore (query : List Char) (c : PyDict) : PyDict :=
  dictSet c "relevance_score" (.vNat (chunkScore query c))

/-- The scored list in corpus order: chunks with score 0 are skipped. -/
def scoredChunks (query : List Char) (chunks : List PyDict) : List PyDict :=
  (chunks.filter (fun c => 0 < chunkScore query c)).map (withScore query)

/-- The sort key `x['relevance_score']` (always set by `withScore`). -/
def relKey (r : PyDict) : Nat :=
  match r.lookup "relevance_score" with
  | some (.vNat n) => n
  | _ => 0

/-- Stable descending insertion: skip the strictly greater keys, then insert
before the first element of equal-or-smaller key. -/
def insertDesc (x : PyDict) : List PyDict → List PyDict
  | [] => [x]
  | y :: ys => if relKey x < relKey y then y :: insertDesc x ys else x :: y :: ys

/-- Stable descending sort by `relKey`.  Python's
`list.sort(key=..., reverse=True)` is a stable descending sort; stable
sortedness determines the output uniquely, so this insertion sort computes
the same list (its sortedness and stability are proved below). -/
def sortDesc : List PyDict → List PyDict
  | [] => []
  | x :: xs => insertDesc x (sortDesc xs)

/-- `RAGEngine.semantic_search(query, chunks, top_k)`. -/
def semantic_search (query : List Char) (chunks : List PyDict) (top_k : Nat) : List PyDict :=
  (sortDesc (scoredChunks query chunks)).take top_k

/-! ## Risk auditor: `RiskAuditEngine`

Findings are Python dicts with a fixed key set, modelled as a record.
`char_start` / `char_end` are `Option` because the custom checks that
return only an `evidence` key leave them `None` (`result.get('char_start')`).
The optional fact map passed to the custom checks is a loose dict. -/

structure Finding where
  finding_type : String
  severity : String
  description : String
  evidence : List Char
  char_start : Option Nat
  char_end : Option Nat
deriving DecidableEq

/-- What a custom check returns when it fires (the dict read back through
`result.get('evidence', '')`, `result.get('char_start')`, `result.get('char_end')`). -/
structure CheckResult where
  evidence : List Char
  char_start : Option Nat
  char_end : Option Nat
deriving DecidableEq

/-- One row of `RiskAuditEngine.RISK_RULES`. -/
structure Rule where
  id : String
  name : String
  severity : String
  patterns : List RE
  check_func : Option String

/-- Python truthiness of a fact-map value (`not extracted_data.get(k)`). -/
def pyTruthy : PyVal → Bool
  | .vStr s => !s.isEmpty
  | .vNat n => n != 0

def optTruthy : Option PyVal → Bool
  | some v => pyTruthy v
  | none => false

/-- Truthiness of the optional fact map itself (`if extracted_data and ...`):
`None` and the empty dict are falsy. -/
def factsTruthy : Option PyDict → Bool
  | some d => !d.isEmpty
  | none => false

def factsGet (facts : Option PyDict) (k : String) : Option PyVal :=
  match facts with
  | some d => d.lookup k
  | none => none

/-- `r'terminat(?:ion|e)'` -/
def terminatRE : RE := .seq (reLit "terminat") (.alt (reLit "ion") (reLit "e"))

/-- `RiskAuditEngine.check_termination_clause`. -/
def check_termination_clause (text : List Char) (facts : Option PyDict) :
    Option CheckResult :=
  if (pySearchI terminatRE text).isNone then
    some ⟨"No termination clause found in document".data, none, none⟩
  else if factsTruthy facts && !optTruthy (factsGet facts "termination") then
    some ⟨"Termination clause not clearly defined".data, none, none⟩
  else none

/-- The first `(\d+)\s+days?\s+(?:notice|prior)` match of a window, with its
captured day count (`int(group(1))`). -/
def noticeFirst (w : List Char) : Option (Nat × Nat × Nat) :=
  (pySearchI noticeRE w).map (fun m =>
    (m.1, m.2.1, natOfDigits (groupSlice (lowerL w) m)))

/-- `RiskAuditEngine.check_auto_renewal`: the notice search runs over
`text[max(0, start - 500) : end + 500]` around the first auto-renewal match;
a finding is anchored at the renewal match with a 200-character evidence
window. -/
def check_auto_renewal (text : List Char) (facts : Option PyDict) :
    Option CheckResult :=
  match pySearchI autoRenewRE text with
  | none => none
  | some m =>
    let window := sliceN text (m.1 - 500) (m.2.1 + 500)
    let fire : CheckResult :=
      ⟨sliceN text m.1 (min text.length (m.1 + 200)),
       some m.1, some (min text.length (m.1 + 200))⟩
    match noticeFirst window with
    | some nm => if nm.2.2 < 30 then some fire else none
    | none => some fire

/-- `r'governing\s+law'` -/
def governingLawRE : RE := .seq (reLit "governing") (.seq (rePlus reSpace) (reLit "law"))

/-- `RiskAuditEngine.check_governing_law`. -/
def check_governing_law (text : List Char) (facts : Option PyDict) :
    Option CheckResult :=
  if (pySearchI governingLawRE text).isNone then
    some ⟨"No governing law clause found".data, none, none⟩
  else if factsTruthy facts && !optTruthy (factsGet facts "governing_law") then
    some ⟨"Governing law not clearly specified".data, none, none⟩
  else none

/-- `r'(?:terminate|cancel).*?(\d+)\s+days?\s+notice'` -/
def shortNoticeRE : RE :=
  reSeqs [.alt (reLit "terminate") (reLit "cancel"), reLazyDotStar,
          .grp (rePlus reDigit), rePlus reSpace, reLit "day", .opt (reLit "s"),
          rePlus reSpace, reLit "notice"]

/-- `RiskAuditEngine.check_termination_notice`: the first match (in finditer
order) whose day count is below 30 fires, with a 100-character trailing
evidence extension. -/
def check_termination_notice (text : List Char) (facts : Option PyDict) :
    Option CheckResult :=
  (pyFinditerI shortNoticeRE text).findSome? (fun m =>
    let days := natOfDigits (groupSlice (lowerL text) m)
    if days < 30 then
      some ⟨sliceN text m.1 (min text.length (m.2.1 + 100)),
            some m.1, some (min text.length (m.2.1 + 100))⟩
    else none)

/-- `getattr(self, rule['check_func'], None)` followed by the call: dispatch
by name, unknown names silently doing nothing. -/
def runCheck (name : String) (text : List Char) (facts : Option PyDict) :
    Option CheckResult :=
  if name = "check_termination_clause" then check_termination_clause text facts
  else if name = "check_auto_renewal" then check_auto_renewal text facts
  else if name = "check_governing_law" then check_governing_law text facts
  else if name = "check_termination_notice" then check_termination_notice text facts
  else none

/-- `RiskAuditEngine.RISK_RULES`, in table order. -/
def RISK_RULES : List Rule :=
  [ ⟨"MISSING_TERMINATION", "Missing Termination Clause", "high", [],
     some "check_termination_clause"⟩,
    ⟨"UNLIMITED_LIABILITY", "Unlimited Liability", "high",
     [ -- r'unlimited\s+liability'
       reSeqs [reLit "unlimited", rePlus reSpace, reLit "liability"],
       -- r'no\s+(?:limit|cap).*?liability'
       reSeqs [reLit "no", rePlus reSpace, .alt (reLit "limit") (reLit "cap"),
               reLazyDotStar, reLit "liability"] ],
     none⟩,
    ⟨"AUTO_RENEWAL", "Automatic Renewal Without Notice", "medium",
     [autoRenewRE], some "check_auto_renewal"⟩,
    ⟨"MISSING_GOVERNING_LAW", "Missing Governing Law", "medium", [],
     some "check_governing_law"⟩,
    ⟨"UNILATERAL_MODIFICATION", "Unilateral Modification Rights", "high",
     [ -- r'(?:may|can|shall)\s+(?:modify|change|amend).*?(?:at any time|without notice)'
       reSeqs [reAlts [reLit "may", reLit "can", reLit "shall"], rePlus reSpace,
               reAlts [reLit "modify", reLit "change", reLit "amend"],
               reLazyDotStar, .alt (reLit "at any time") (reLit "without notice")],
       -- r'reserves?\s+the\s+right\s+to\s+(?:modify|change|amend)'
       reSeqs [reLit "reserve", .opt (reLit "s"), rePlus reSpace, reLit "the",
               rePlus reSpace, reLit "right", rePlus reSpace, reLit "to",
               rePlus reSpace, reAlts [reLit "modify", reLit "change", reLit "amend"]] ],
     none⟩,
    ⟨"SHORT_NOTICE_TERMINATION", "Short Notice Period", "medium",
     [shortNoticeRE], some "check_termination_notice"⟩,
    ⟨"BROAD_INDEMNITY", "Broad Indemnity Clause", "high",
     [ -- r'indemnify.*?(?:from\s+(?:any|all)|harmless)'
       reSeqs [reLit "indemnify", reLazyDotStar,
               .alt (reSeqs [reLit "from", rePlus reSpace, .alt (reLit "any") (reLit "all")])
                    (reLit "harmless")],
       -- r'hold\s+harmless'
       reSeqs [reLit "hold", rePlus reSpace, reLit "harmless"] ],
     none⟩,
    ⟨"NO_WARRANTY", "No Warranty Disclaimer", "low",
     [ reSeqs [reLit "as", rePlus reSpace, reLit "is"],            -- r'as\s+is'
       reSeqs [reLit "without", rePlus reSpace, reLit "warranty"], -- r'without\s+warranty'
       reSeqs [reLit "no", rePlus reSpace, reLit "warranties"] ],  -- r'no\s+warranties'
     none⟩ ]

/-- `{'high': 30, 'medium': 15, 'low': 5}.get(f.get('severity', 'low'), 5)`:
any severity other than high/medium maps to 5. -/
def severityWeight (s : String) : Nat :=
  if s = "high" then 30 else if s = "medium" then 15 else 5

/-- `RiskAuditEngine.calculate_risk_score`: 0 for no findings, else the
weight sum capped at 100.  The Python float result is integral here. -/
def calculate_risk_score (findings : List Finding) : Nat :=
  if findings.isEmpty then 0
  else min (findings.map (fun f => severityWeight f.severity)).sum 100

/-- The pattern phase for one rule: the source iterates the rule's patterns
and, per pattern, iterates its `finditer` matches but `break`s out of the
inner loop after appending the first one — so every *matching pattern*
contributes the finding of its first match (the first `finditer` element is
the `re.search` match).  Evidence is the stripped ±100-character window
around the match. -/
def patternFindings (rule : Rule) (text : List Char) : List Finding :=
  rule.patterns.flatMap (fun p =>
    match pySearchI p text with
    | some m =>
      [⟨rule.id, rule.severity, rule.name,
        pyStrip (sliceN text (m.1 - 100) (min text.length (m.2.1 + 100))),
        some m.1, some m.2.1⟩]
    | none => [])

/-- The custom-check phase for one rule. -/
def checkFindings (rule : Rule) (text : List Char) (facts : Option PyDict) :
    List Finding :=
  match rule.check_func with
  | some name =>
    match runCheck name text facts with
    | some r => [⟨rule.id, rule.severity, rule.name, r.evidence, r.char_start, r.char_end⟩]
    | none => []
  | none => []

/-- `RiskAuditEngine.audit_document(text, extracted_data)`: rule-table order,
pattern findings before the rule's custom-check finding, then the risk score. -/
def audit_document (text : List Char) (facts : Option PyDict) :
    List Finding × Nat :=
  let findings := RISK_RULES.flatMap (fun rule =>
    patternFindings rule text ++ checkFindings rule text facts)
  (findings, calculate_risk_score findings)

/-- Count of findings of a given type in an audit result. -/
def countType (t : String) (fs : List Finding) : Nat :=
  fs.countP (fun f => f.finding_type == t)

/-! ## Concrete inputs referenced by the theorems below. -/

/-- A text on which both `UNLIMITED_LIABILITY` patterns match. -/
def c1Text : List Char := "unlimited liability and no cap on liability".data

/-- A text on which the chunk loop cycles with `start` running through
the values `0, -6, -5, -4, -3, -2, -1` forever (size 10, overlap 9). -/
def c3Text : List Char := "a. ".data ++ List.replicate 107 'b'

/-- A text whose auto-renewal window contains a 60-day notice phrase, but
whose first notice phrase is 10 days. -/
def c4Text : List Char :=
  "This contract will automatically renew. Cancellation requires 10 days notice, or 60 days notice in writing.".data

/-- A chunk record that already carries a `relevance_score` key. -/
def c10Chunk : PyDict :=
  [("text_content", .vStr "hello world".data), ("relevance_score", .vNat 999)]

/-- A dummy finding with a given severity (only the severity matters to
`calculate_risk_score`). -/
def mkFinding (s : String) : Finding := ⟨"T", s, "d", [], none, none⟩

/-! ## Sanity evaluations of the embedding. -/

example : pySearch (reLit "ab") "xxaby".data = some (2, 4, none) := by decide
example : pyFinditer (reLit "aa") "aaaa".data = [(0, 2, none), (2, 4, none)] := by decide
example : chunk_text "One. Two.".data 1000 200 5 = some ["One. Two.".data] := by decide
example : chunk_text [] 10 2 1 = some [] := by decide
example : extract_auto_renewal "will automatically renew with 30 days notice".data =
    "Yes, 30 days notice required".data := by decide
example : extract_auto_renewal "renews automatically".data = "No".data := by decide
example : extract_dates "dated 12/31/2024".data = some "12/31/2024".data := by decide
example : extract_term "for a period of 3 years".data = some "3 years".data := by decide
example : extract_governing_law "governed by the laws of New York".data =
    some "New York".data := by decide
example :
    semantic_search "payment terms".data
      [[("text_content", .vStr "the payment terms are net 30".data)],
       [("text_content", .vStr "no match here".data)],
       [("text_content", .vStr "payment only".data)]] 5 =
      [[("text_content", .vStr "the payment terms are net 30".data),
        ("relevance_score", .vNat 2)],
       [("text_content", .vStr "payment only".data), ("relevance_score", .vNat 1)]] := by
  decide
example :
    (audit_document c1Text none).1.map (fun f => f.finding_type) =
      ["MISSING_TERMINATION", "UNLIMITED_LIABILITY", "UNLIMITED_LIABILITY",
       "MISSING_GOVERNING_LAW"] := by
  decide

/-! ## Helper lemmas about the stable descending sort and dict update. -/

theorem insertDesc_perm (x : PyDict) (l : List PyDict) : (insertDesc x l).Perm (x :: l) := by
  induction l with
  | nil => exact List.Perm.refl _
  | cons y ys ih =>
    simp only [insertDesc]
    split
    · exact (ih.cons y).trans (List.Perm.swap x y ys)
    · exact List.Perm.refl _

theorem sortDesc_perm (l : List PyDict) : (sortDesc l).Perm l := by
  induction l with
  | nil => exact List.Perm.refl _
  | cons x xs ih => exact (insertDesc_perm x (sortDesc xs)).trans (ih.cons x)

theorem pairwise_insertDesc (x : PyDict) (l : List PyDict)
    (h : l.Pairwise (fun a b => relKey b ≤ relKey a)) :
    (insertDesc x l).Pairwise (fun a b => relKey b ≤ relKey a) := by
  induction l with
  | nil => simp [insertDesc]
  | cons y ys ih =>
    rw [List.pairwise_cons] at h
    obtain ⟨hy, hys⟩ := h
    simp only [insertDesc]
    split
    · rename_i hlt
      rw [List.pairwise_cons]
      refine ⟨?_, ih hys⟩
      intro z hz
      rcases List.mem_cons.mp ((insertDesc_perm x ys).mem_iff.mp hz) with rfl | hz
      · exact Nat.le_of_lt hlt
      · exact hy z hz
    · rename_i hge
      rw [List.pairwise_cons]
      refine ⟨?_, List.pairwise_cons.mpr ⟨hy, hys⟩⟩
      intro z hz
      rcases List.mem_cons.mp hz with rfl | hz
      · exact Nat.le_of_not_lt hge
      · exact Nat.le_trans (hy z hz) (Nat.le_of_not_lt hge)

theorem pairwise_sortDesc (l : List PyDict) :
    (sortDesc l).Pairwise (fun a b => relKey b ≤ relKey a) := by
  induction l with
  | nil => exact List.Pairwise.nil
  | cons x xs ih => exact pairwise_insertDesc x (sortDesc xs) ih

theorem filter_insertDesc (s : Nat) (x : PyDict) (l : List PyDict) :
    (insertDesc x l).filter (fun r => relKey r == s) =
      if relKey x = s then x :: l.filter (fun r => relKey r == s)
      else l.filter (fun r => relKey r == s) := by
  induction l with
  | nil =>
    by_cases hx : relKey x = s <;> simp [insertDesc, List.filter_cons, hx]
  | cons y ys ih =>
    simp only [insertDesc]
    split
    · rename_i hlt
      by_cases hx : relKey x = s
      · have hy : ¬ relKey y = s := by omega
        simp [List.filter_cons, hx, hy, ih]
      · simp only [List.filter_cons, ih, if_neg hx]
    · by_cases hx : relKey x = s <;> simp [List.filter_cons, hx]

theorem filter_sortDesc (s : Nat) (l : List PyDict) :
    (sortDesc l).filter (fun r => relKey r == s) = l.filter (fun r => relKey r == s) := by
  induction l with
  | nil => rfl
  | cons x xs ih =>
    show (insertDesc x (sortDesc xs)).filter _ = _
    rw [filter_insertDesc]
    by_cases hx : relKey x = s <;> simp [List.filter_cons, hx, ih]

theorem lookup_dictSet (d : PyDict) (k : String) (v : PyVal) :
    (dictSet d k v).lookup k = some v := by
  induction d with
  | nil => simp [dictSet, List.lookup]
  | cons e rest ih =>
    obtain ⟨k', v'⟩ := e
    simp only [dictSet]
    split
    · simp [List.lookup]
    · rename_i hne
      have : (k == k') = false := by
        simp only [beq_eq_false_iff_ne]
        intro h
        exact hne (by simp [h])
      simp [List.lookup, this, ih]

theorem dictSet_eq_append (d : PyDict) (k : String) (v : PyVal)
    (h : d.lookup k = none) : dictSet d k v = d ++ [(k, v)] := by
  induction d with
  | nil => rfl
  | cons e rest ih =>
    obtain ⟨k', v'⟩ := e
    rw [List.lookup_cons] at h
    by_cases hk : (k == k') = true
    · rw [hk] at h
      exact absurd h (by simp)
    · have hkf : (k == k') = false := by simpa using hk
      rw [hkf] at h
      have hk' : (k' == k) = false := by
        simp only [beq_eq_false_iff_ne] at hkf ⊢
        exact fun hkk => hkf hkk.symm
      simp only [dictSet, hk', Bool.false_eq_true, if_false, List.cons_append]
      rw [ih h]

theorem relKey_withScore (q : List Char) (c : PyDict) :
    relKey (withScore q c) = chunkScore q c := by
  simp [relKey, withScore, lookup_dictSet]

/-- Every record returned by `semantic_search` is a scored copy of some
corpus chunk with positive score. -/
theorem mem_semantic_search {q : List Char} {chunks : List PyDict} {k : Nat} {r : PyDict}
    (hr : r ∈ semantic_search q chunks k) :
    ∃ c ∈ chunks, 0 < chunkScore q c ∧ r = withScore q c := by
  have h1 : r ∈ sortDesc (scoredChunks q chunks) :=
    (List.take_sublist _ _).subset hr
  have h2 : r ∈ scoredChunks q chunks := (sortDesc_perm _).mem_iff.mp h1
  simp only [scoredChunks, List.mem_map, List.mem_filter, decide_eq_true_eq] at h2
  obtain ⟨c, ⟨hc, hs⟩, rfl⟩ := h2
  exact ⟨c, hc, hs, rfl⟩

theorem findSome?_eq_none_of {α β : Type} (f : α → Option β) (l : List α)
    (h : ∀ a ∈ l, f a = none) : l.findSome? f = none :=
  List.findSome?_eq_none_iff.mpr h

/-! ## The claims. -/

/-- Claim C1.  The claim states that a rule never emits more than one
pattern-based finding per audit run (only the first matching pattern, only
its first match).  The code contradicts its own comment
(`# Only add one finding per rule`): the `break` only leaves the inner
match loop, so every matching pattern of a rule emits a finding.  On
`c1Text` both `UNLIMITED_LIABILITY` patterns match and the rule emits two
findings (at spans 0-19 and 24-43, each the first match of its pattern
with the ±100-character stripped evidence window). -/
theorem claim_C1_refuting_eval :
    countType "UNLIMITED_LIABILITY" (audit_document c1Text none).1 = 2 ∧
    (audit_document c1Text none).1.map (fun f => (f.finding_type, f.char_start, f.char_end)) =
      [("MISSING_TERMINATION", none, none),
       ("UNLIMITED_LIABILITY", some 0, some 19),
       ("UNLIMITED_LIABILITY", some 24, some 43),
       ("MISSING_GOVERNING_LAW", none, none)] := by
  decide

/-- Claim C2.  The claim states that an invalid configuration
(`overlap ≥ size` or `size ≤ 0`) raises before emitting any chunk and never
enters a non-terminating loop.  The code performs no validation at all: on
`chunk_text("ab", 1, 1)` the cursor stays at 0 forever (`end = 1`, no
boundary match, `start = end - overlap = 0`), so the loop never returns for
any amount of fuel — it neither raises nor terminates. -/
theorem claim_C2_refuting_eval :
    ∀ fuel : Nat, chunk_text "ab".data 1 1 fuel = none := by
  have step : ∀ (fuel : Nat) (acc : List (List Char)),
      chunkLoop "ab".data 1 1 (fuel + 1) 0 acc =
        chunkLoop "ab".data 1 1 fuel 0 (acc ++ ["a".data]) :=
    fun _ _ => rfl
  have loop : ∀ (fuel : Nat) (acc : List (List Char)),
      chunkLoop "ab".data 1 1 fuel 0 acc = none := by
    intro fuel
    induction fuel with
    | zero => intro _; rfl
    | succ n ih =>
      intro acc
      rw [step]
      exact ih _
  intro fuel
  exact loop fuel []

/-- Claim C3.  The claim states that `chunk_text` terminates for every text
whenever `size > 0` and `0 ≤ overlap < size`, because the boundary search
only extends the chunk end forward.  In fact the boundary search can move
the end backward (the last boundary match in the window may end before
`start + size`), and with the valid configuration `size = 10, overlap = 9`
on `c3Text` the cursor becomes negative, Python's negative-index slicing
then yields empty windows, and the cursor cycles through
`0, -6, -5, -4, -3, -2, -1, 0, …` forever: the loop never returns for any
amount of fuel. -/
theorem claim_C3_refuting_eval :
    ∀ fuel : Nat, chunk_text c3Text 10 9 fuel = none := by
  have s0 : ∀ (f : Nat) (acc : List (List Char)),
      chunkLoop c3Text 10 9 (f + 1) 0 acc =
        chunkLoop c3Text 10 9 f (-6) (acc ++ ["a.".data]) :=
    fun _ _ => rfl
  have s6 : ∀ (f : Nat) (acc : List (List Char)),
      chunkLoop c3Text 10 9 (f + 1) (-6) acc = chunkLoop c3Text 10 9 f (-5) acc :=
    fun _ _ => rfl
  have s5 : ∀ (f : Nat) (acc : List (List Char)),
      chunkLoop c3Text 10 9 (f + 1) (-5) acc = chunkLoop c3Text 10 9 f (-4) acc :=
    fun _ _ => rfl
  have s4 : ∀ (f : Nat) (acc : List (List Char)),
      chunkLoop c3Text 10 9 (f + 1) (-4) acc = chunkLoop c3Text 10 9 f (-3) acc :=
    fun _ _ => rfl
  have s3 : ∀ (f : Nat) (acc : List (List Char)),
      chunkLoop c3Text 10 9 (f + 1) (-3) acc = chunkLoop c3Text 10 9 f (-2) acc :=
    fun _ _ => rfl
  have s2 : ∀ (f : Nat) (acc : List (List Char)),
      chunkLoop c3Text 10 9 (f + 1) (-2) acc = chunkLoop c3Text 10 9 f (-1) acc :=
    fun _ _ => rfl
  have s1 : ∀ (f : Nat) (acc : List (List Char)),
      chunkLoop c3Text 10 9 (f + 1) (-1) acc = chunkLoop c3Text 10 9 f 0 acc :=
    fun _ _ => rfl
  have loop : ∀ (f : Nat) (s : Int),
      s = 0 ∨ s = -6 ∨ s = -5 ∨ s = -4 ∨ s = -3 ∨ s = -2 ∨ s = -1 →
      ∀ acc : List (List Char), chunkLoop c3Text 10 9 f s acc = none := by
    intro f
    induction f with
    | zero => intro s _ _; rfl
    | succ n ih =>
      intro s hs acc
      rcases hs with rfl | rfl | rfl | rfl | rfl | rfl | rfl
      · rw [s0]; exact ih _ (by omega) _
      · rw [s6]; exact ih _ (by omega) _
      · rw [s5]; exact ih _ (by omega) _
      · rw [s4]; exact ih _ (by omega) _
      · rw [s3]; exact ih _ (by omega) _
      · rw [s2]; exact ih _ (by omega) _
      · rw [s1]; exact ih _ (by omega) _
  intro fuel
  exact loop fuel 0 (by omega) []

/-- Claim C4, counterexample.  The claim states that when the window around
the first auto-renewal phrase contains an `N days notice` phrase with
`N ≥ 30`, `audit_document` yields no `AUTO_RENEWAL` finding.  On `c4Text`
that window (the whole text) contains both a 10-day and a 60-day notice
phrase, yet the audit emits two `AUTO_RENEWAL` findings: the rule's
pattern entry always fires on the renewal phrase, and the custom check
consults only the first notice match (10 < 30). -/
theorem claim_C4_counterexample :
    pySearchI autoRenewRE c4Text = some (19, 38, none) ∧
    (pyFinditerI noticeRE (sliceN c4Text (19 - 500) (38 + 500))).map
        (fun m => natOfDigits (groupSlice (lowerL c4Text) m)) = [10, 60] ∧
    countType "AUTO_RENEWAL" (audit_document c4Text none).1 = 2 := by
  decide

/-- Claim C4, as amended.  `check_auto_renewal` (the custom-check part of
the `AUTO_RENEWAL` rule) returns no finding iff the renewal phrase is
absent, or the *first* `N days notice/prior` match inside
`text[max(0, start-500) : end+500]` has `N ≥ 30`; otherwise (first match
has `N < 30`, or no match in the window) it returns the finding anchored
at the renewal phrase with the 200-character evidence window.  The
pattern entry of the rule fires independently whenever the phrase
matches. -/
theorem claim_C4_amended (text : List Char) (facts : Option PyDict) :
    (pySearchI autoRenewRE text = none → check_auto_renewal text facts = none) ∧
    (∀ s e g, pySearchI autoRenewRE text = some (s, e, g) →
      ((∀ ns ne d, noticeFirst (sliceN text (s - 500) (e + 500)) = some (ns, ne, d) →
          (30 ≤ d → check_auto_renewal text facts = none) ∧
          (d < 30 → check_auto_renewal text facts =
            some ⟨sliceN text s (min text.length (s + 200)), some s,
                  some (min text.length (s + 200))⟩)) ∧
        (noticeFirst (sliceN text (s - 500) (e + 500)) = none →
          check_auto_renewal text facts =
            some ⟨sliceN text s (min text.length (s + 200)), some s,
                  some (min text.length (s + 200))⟩))) := by
  constructor
  · intro h
    simp only [check_auto_renewal, h]
  · intro s e g hm
    constructor
    · intro ns ne d hn
      constructor
      · intro hd
        simp only [check_auto_renewal, hm, hn]
        rw [if_neg (by omega)]
      · intro hd
        simp only [check_auto_renewal, hm, hn]
        rw [if_pos hd]
    · intro hn
      simp only [check_auto_renewal, hm, hn]

/-- Witness for the amended C4 at a concrete input: the first (and only)
notice phrase near the renewal phrase promises 45 ≥ 30 days, so the custom
check emits nothing. -/
theorem claim_C4_witness :
    30 ≤ 45 ∧
    check_auto_renewal "automatically renew 45 days notice".data none = none :=
  ⟨by omega,
    (((claim_C4_amended "automatically renew 45 days notice".data none).2 0 19 none
        (by decide)).1 20 34 45 (by decide)).1 (by omega)⟩

/-- Claim C5.  `semantic_search` returns at most `top_k` records; every
returned record is a positively-scored copy of a corpus chunk (score-0
chunks are excluded), carrying as `relevance_score` the number of distinct
lower-cased whitespace query tokens occurring in the lower-cased chunk
text; the output is ordered by descending score; and for every score value
the output records with that score form an initial segment of the scored
corpus-order list, i.e. ties keep their original corpus order. -/
theorem claim_C5 (query : List Char) (chunks : List PyDict) (top_k : Nat) :
    (semantic_search query chunks top_k).length ≤ top_k ∧
    (∀ r ∈ semantic_search query chunks top_k,
        ∃ c ∈ chunks, 0 < chunkScore query c ∧ r = withScore query c ∧
          relKey r = chunkScore query c) ∧
    (semantic_search query chunks top_k).Pairwise (fun a b => relKey b ≤ relKey a) ∧
    (∀ s : Nat, ∃ rest,
        (semantic_search query chunks top_k).filter (fun r => relKey r == s) ++ rest =
          (scoredChunks query chunks).filter (fun r => relKey r == s)) := by
  refine ⟨?_, ?_, ?_, ?_⟩
  · simp only [semantic_search, List.length_take]
    exact Nat.min_le_left _ _
  · intro r hr
    obtain ⟨c, hc, hs, rfl⟩ := mem_semantic_search hr
    exact ⟨c, hc, hs, rfl, relKey_withScore _ _⟩
  · exact List.Pairwise.sublist (List.take_sublist _ _) (pairwise_sortDesc _)
  · intro s
    refine ⟨((sortDesc (scoredChunks query chunks)).drop top_k).filter
        (fun r => relKey r == s), ?_⟩
    simp only [semantic_search]
    rw [← List.filter_append, List.take_append_drop, filter_sortDesc]

/-- Witness for C5 at a concrete corpus: the single returned record is the
scored copy of the single chunk, whose score 1 is positive. -/
theorem claim_C5_witness :
    ∃ c ∈ [[("text_content", PyVal.vStr "net 30 payment".data)]],
      0 < chunkScore "net".data c ∧
      [("text_content", PyVal.vStr "net 30 payment".data),
       ("relevance_score", PyVal.vNat 1)] = withScore "net".data c ∧
      relKey [("text_content", PyVal.vStr "net 30 payment".data),
              ("relevance_score", PyVal.vNat 1)] = chunkScore "net".data c :=
  (claim_C5 "net".data [[("text_content", PyVal.vStr "net 30 payment".data)]] 1).2.1
    _ (by decide)

/-- Claim C6.  `calculate_risk_score` is the severity-weight sum
(high 30, medium 15, low 5) capped at 100; it is invariant under
permutations of the findings; one high finding scores 30; two high plus
one medium score 75; and the result never exceeds 100 (it is a `Nat`, so
it is also never below 0). -/
theorem claim_C6 :
    (∀ fs : List Finding,
        calculate_risk_score fs =
          min (fs.map (fun f => severityWeight f.severity)).sum 100) ∧
    (∀ fs fs' : List Finding, fs.Perm fs' →
        calculate_risk_score fs = calculate_risk_score fs') ∧
    calculate_risk_score [mkFinding "high"] = 30 ∧
    calculate_risk_score [mkFinding "high", mkFinding "high", mkFinding "medium"] = 75 ∧
    (∀ fs : List Finding, calculate_risk_score fs ≤ 100) := by
  have h1 : ∀ fs : List Finding,
      calculate_risk_score fs =
        min (fs.map (fun f => severityWeight f.severity)).sum 100 := by
    intro fs
    cases fs with
    | nil => rfl
    | cons f fs => rfl
  refine ⟨h1, ?_, by decide, by decide, ?_⟩
  · intro fs fs' h
    rw [h1, h1, (h.map _).sum_eq]
  · intro fs
    rw [h1]
    exact Nat.min_le_right _ _

/-- Witness for C6: permutation invariance applied at a concrete swap. -/
theorem claim_C6_witness :
    calculate_risk_score [mkFinding "high", mkFinding "medium"] =
      calculate_risk_score [mkFinding "medium", mkFinding "high"] :=
  claim_C6.2.1 _ _ (List.Perm.swap _ _ _)

/-- Claim C7.  The audit is a pure function of `(text, fact_map)`: two calls
with identical arguments give identical findings and score, and the
returned score is exactly `calculate_risk_score` of the returned findings.
Purity is intrinsic to the embedding because the source computes the audit
from its two arguments alone (module state — the rule table — is a
constant, and no mutable state is read or written). -/
theorem claim_C7 (text : List Char) (facts : Option PyDict) :
    audit_document text facts = audit_document text facts ∧
    (audit_document text facts).2 = calculate_risk_score (audit_document text facts).1 :=
  ⟨rfl, rfl⟩

/-- The liability cascade yields nothing when no pattern matches. -/
theorem liabilityGo_eq_none (text : List Char) :
    ∀ ps : List RE, (∀ p ∈ ps, pySearchI p text = none) → liabilityGo text ps = none := by
  intro ps
  induction ps with
  | nil => intro _; rfl
  | cons p ps ih =>
    intro h
    have hp := h p (List.mem_cons_self p ps)
    simp only [liabilityGo, hp]
    exact ih fun q hq => h q (List.mem_cons_of_mem p hq)

/-- Claim C8.  Every extraction routine is total (the embedding returns a
value for every input string — no exception path exists in the source:
all numeric conversions act on digit-only captures, and the liability
parse failure path falls through to the next pattern), and a field whose
patterns do not match resolves to its null/default value: empty party
list, `none` for dates/term/governing law, the empty record for the
liability cap, and `"No"` for auto-renewal. -/
theorem claim_C8 (text : List Char) :
    ((∀ p ∈ partyPatterns, pyFinditerI p (text.take 2000) = []) →
        extract_parties text = []) ∧
    ((∀ p ∈ datePatterns, pySearchI p (text.take 2000) = none) →
        extract_dates text = none) ∧
    ((∀ p ∈ termPatterns, pySearchI p (text.take 3000) = none) →
        extract_term text = none) ∧
    ((∀ p ∈ lawPatterns, pySearchI p text = none) →
        extract_governing_law text = none) ∧
    ((∀ p ∈ liabilityPatterns, pySearchI p text = none) →
        extract_liability_cap text = none) ∧
    (pySearchI autoRenewRE text = none → extract_auto_renewal text = "No".data) := by
  refine ⟨?_, ?_, ?_, ?_, ?_, ?_⟩
  · intro h
    simp only [extract_parties]
    rw [List.flatMap_eq_nil_iff.mpr]
    · rfl
    · intro p hp
      rw [h p hp]
      rfl
  · intro h
    simp only [extract_dates]
    exact findSome?_eq_none_of _ _ (fun p hp => by rw [h p hp]; rfl)
  · intro h
    simp only [extract_term]
    exact findSome?_eq_none_of _ _ (fun p hp => by rw [h p hp]; rfl)
  · intro h
    simp only [extract_governing_law]
    exact findSome?_eq_none_of _ _ (fun p hp => by rw [h p hp]; rfl)
  · intro h
    exact liabilityGo_eq_none text liabilityPatterns h
  · intro h
    simp only [extract_auto_renewal, h]
    rfl

/-- Witness for C8: on the empty string no pattern matches and every field
takes its default. -/
theorem claim_C8_witness :
    extract_parties [] = [] ∧ extract_dates [] = none ∧ extract_term [] = none ∧
    extract_governing_law [] = none ∧ extract_liability_cap [] = none ∧
    extract_auto_renewal [] = "No".data :=
  ⟨(claim_C8 []).1 (by decide), (claim_C8 []).2.1 (by decide),
   (claim_C8 []).2.2.1 (by decide), (claim_C8 []).2.2.2.1 (by decide),
   (claim_C8 []).2.2.2.2.1 (by decide), (claim_C8 []).2.2.2.2.2 (by decide)⟩

/-- Claim C9.  On the spec's test string the liability cap is extracted as
amount 100000 with currency USD: the match is
`liability shall not exceed USD $100,000`, the captured `100,000` is
comma-stripped and parsed, and the first currency marker of the matched
span (`USD`, found before the `$`) normalizes to USD. -/
theorem claim_C9 :
    extract_liability_cap "...liability shall not exceed USD $100,000...".data =
      some ⟨100000, "USD"⟩ := by
  decide

/-- Claim C10, counterexample.  The claim states that every returned record
keeps all input pairs unchanged and gains exactly one additional key.  If
the input record already contains a `relevance_score` key, the key is
overwritten in place instead: the input pair `("relevance_score", 999)` is
not preserved and no key is added. -/
theorem claim_C10_counterexample :
    ("relevance_score", PyVal.vNat 999) ∈ c10Chunk ∧
    semantic_search "hello".data [c10Chunk] 5 =
      [[("text_content", PyVal.vStr "hello world".data),
        ("relevance_score", PyVal.vNat 1)]] ∧
    ("relevance_score", PyVal.vNat 999) ∉
      [("text_content", PyVal.vStr "hello world".data),
       ("relevance_score", PyVal.vNat 1)] := by
  decide

/-- Claim C10, as amended.  Provided no input record already contains the
key `relevance_score`, every record returned by `semantic_search` is some
input chunk record with all its pairs unchanged and with exactly the
single pair `("relevance_score", score)` appended. -/
theorem claim_C10_amended (query : List Char) (chunks : List PyDict) (top_k : Nat)
    (h : ∀ c ∈ chunks, c.lookup "relevance_score" = none) :
    ∀ r ∈ semantic_search query chunks top_k,
      ∃ c ∈ chunks, r = c ++ [("relevance_score", PyVal.vNat (chunkScore query c))] := by
  intro r hr
  obtain ⟨c, hc, _, rfl⟩ := mem_semantic_search hr
  refine ⟨c, hc, ?_⟩
  show dictSet c "relevance_score" (PyVal.vNat (chunkScore query c)) = _
  exact dictSet_eq_append c _ _ (h c hc)

/-- Witness for the amended C10 at a concrete input without a pre-existing
`relevance_score` key. -/
theorem claim_C10_witness :
    ∃ c ∈ [[("text_content", PyVal.vStr "hello there".data)]],
      [("text_content", PyVal.vStr "hello there".data),
       ("relevance_score", PyVal.vNat 1)] =
        c ++ [("relevance_score", PyVal.vNat (chunkScore "hello".data c))] :=
  claim_C10_amended "hello".data [[("text_content", PyVal.vStr "hello there".data)]] 3
    (by decide) _ (by decide)
